import Mathlib

/-!
Verification of the CDC synchronization core (binlog sync) of this
repository: the position store (`masterInfo` in package `mybinlogsync`)
and the handler registry / dispatcher (`Canal` rows-event handling in
package `binlogsync`).

The Go source is embedded shallowly:

* machine integers are `Nat` with an explicit `% 2 ^ 32` where the source
  performs a `uint32` conversion;
* fallible operations return `Except`/`Option`;
* the external `errors` packages (collaborators of this repository) are
  modelled at their interface boundary: an error value carries a kind
  (`errors.Is(err, errors.Interrupted)` inspects it) and a list of wrap
  messages; `errors.Wrap`/`errors.WithStack` annotate an error without
  changing its kind, and both map a nil error to nil;
* time values (`time.Time`, monotonic clock) are nanosecond counts as
  `Nat`; `time.Now()` becomes an explicit `now` argument;
* mutexes and goroutine scheduling are erased: each dispatch is modelled
  by the list of tasks the source spawns, in spawn order, and
  `errgroup.Wait` (nil iff every task returned nil) is determinized to
  the first non-nil task result in spawn order, which is adequate for
  the stated properties because they depend only on whether some task
  failed and on the kind of the returned error.
-/

/-- Error kinds of the external errors packages, restricted to the kinds this
component distinguishes: `Interrupted` (checked via `errors.Is(err,
errors.Interrupted)`), `DataUnavailable` (named by the design's error
taxonomy), and `Other` standing for every remaining kind. -/
inductive ErrKind where
  | Interrupted
  | DataUnavailable
  | Other
deriving DecidableEq, Repr

/-- Model of a non-nil Go error value: its kind plus the stack of messages
wrapped around the original cause (most recent first). A fallible result is
`Except GoErr _` or `Option GoErr`, so the nil error needs no constructor. -/
structure GoErr where
  kind : ErrKind
  msgs : List String
deriving DecidableEq, Repr

/-- Model of `errors.Wrap(err, msg)` for a non-nil `err`: annotates the error
with a message. Kind checks such as `errors.Is` unwrap the cause chain, so
the kind of the wrapped error is the kind of the cause. (`Wrap(nil, msg)`
returns nil; callers model that case on the `Option`/`Except` level.) -/
def GoErr.wrap (e : GoErr) (msg : String) : GoErr :=
  { e with msgs := msg :: e.msgs }

/-! Position store: package `mybinlogsync`, file of `masterInfo`. -/

/-- Model of one nanosecond-count second, `time.Second`. -/
def timeSecond : Nat := 1000000000

/-- The Go struct `masterInfo`: in-memory binlog cursor. `Name` and
`Position` are the log file name and `uint32` offset; `lastSaveTime` models
the `time.Time` field (nanosecond count, zero value `0`). The mutex field is
erased. -/
structure masterInfo where
  Name : String
  Position : Nat
  lastSaveTime : Nat
deriving DecidableEq, Repr

/-- State of a position store together with its durable storage: `info` is
the in-memory `masterInfo`; `durable` is the content of the external durable
record, `(name, position)`, or `none` when nothing was ever persisted. The
durable side is part of the model state so that statements about persistence
effects can be made; the source's `Save` contains no write to it (the file
write is commented out under "Save todo: implement saving"). -/
structure MasterStore where
  info : masterInfo
  durable : Option (String × Nat)
deriving DecidableEq, Repr

/-- Model of `masterInfo.Save(force bool) error` at time `now`, acting on the
store-with-durable-storage state. Mirrors the source: if not forced and less
than one second elapsed since `lastSaveTime`, return nil without any effect;
otherwise record `now` as `lastSaveTime` and return nil. The serialization
and atomic file write in the source are commented out ("Save todo: implement
saving"), so `durable` is never written. Go's negative-duration comparison
agrees with truncated `Nat` subtraction here: when `now <
lastSaveTime` both sides deem the elapsed time smaller than one second. -/
def MasterStore.save (s : MasterStore) (force : Bool) (now : Nat) : MasterStore × Option GoErr :=
  if !force && now - s.info.lastSaveTime < timeSecond then
    (s, none)
  else
    ({ s with info := { s.info with lastSaveTime := now } }, none)

/-- Model of `masterInfo.Update(name string, pos uint32)`: overwrite the
in-memory name and position. Returns no error in the source (no error result
at all), and touches neither `lastSaveTime` nor durable storage. -/
def MasterStore.update (s : MasterStore) (name : String) (pos : Nat) : MasterStore :=
  { s with info := { s.info with Name := name, Position := pos } }

/-- Model of `masterInfo.Pos()`: a snapshot copy of the current cursor. -/
def MasterStore.pos (s : MasterStore) : String × Nat :=
  (s.info.Name, s.info.Position)

/-- Model of `masterInfo.Close()`: calls `Save(true)`. -/
def MasterStore.close (s : MasterStore) (now : Nat) : MasterStore × Option GoErr :=
  s.save true now

/-- Modulus of the `uint32(pos)` conversion in `loadMasterInfo`. -/
def uint32Mod : Nat := 2 ^ 32

deriving instance DecidableEq for Except

/-- Interface model of the external collaborator result (`mysql.Result`) at
the two calls `loadMasterInfo` makes on the first row of `SHOW MASTER
STATUS`: `col0` is the response of `GetString(0, 0)` and `col1` the response
of `GetUint(0, 1)` (a `uint64` value, hence a `Nat` below `2 ^ 64`). -/
structure StatusResult where
  col0 : Except GoErr String
  col1 : Except GoErr Nat
deriving DecidableEq, Repr

/-- Interface model of the external `mysql.Executer` at the single call
`loadMasterInfo` makes: the response of `Execute("SHOW MASTER STATUS")`. -/
structure Executer where
  execute : Except GoErr StatusResult
deriving DecidableEq, Repr

/-- Model of `loadMasterInfo(exec mysql.Executer) (*masterInfo, error)`:
query the master status, read the log name from the first column and the
`uint64` offset from the second column of the first row, and build the
in-memory cursor with the offset converted to `uint32`. Each failure is
returned wrapped (`errors.Wrap`) with the source's message. -/
def loadMasterInfo (exec : Executer) : Except GoErr masterInfo :=
  match exec.execute with
  | .error err => .error (err.wrap "[mybinlogsync] Failed to execute SHOW MASTER STATUS")
  | .ok res =>
    match res.col0 with
    | .error err => .error (err.wrap "[mybinlogsync] Failed to fetch first row with 1st column")
    | .ok name =>
      match res.col1 with
      | .error err => .error (err.wrap "[mybinlogsync] Failed to fetch first row with 2nd column")
      | .ok pos => .ok { Name := name, Position := pos % uint32Mod, lastSaveTime := 0 }

/-- First failing collaborator response on the `loadMasterInfo` path, if
any: the status query, then the first column, then the second column. Used
to state when `loadMasterInfo` fails and with which underlying error. -/
def firstFetchError (exec : Executer) : Option GoErr :=
  match exec.execute with
  | .error e => some e
  | .ok res =>
    match res.col0 with
    | .error e => some e
    | .ok _ =>
      match res.col1 with
      | .error e => some e
      | .ok _ => none

/-- Kind of the error of a failed load result, if the result failed. -/
def loadErrKind (r : Except GoErr masterInfo) : Option ErrKind :=
  match r with
  | .error e => some e.kind
  | .ok _ => none

/-! Handler registry and dispatcher: package `binlogsync`, the rows-event
handler part of the `Canal` type. -/

/-- Interface model of the external schema descriptor `ddl.Table` at the
boundary the dispatcher uses: only its `Name` field is read. -/
structure Table where
  Name : String
deriving DecidableEq, Repr

/-- Row payloads of a rows event, `rows [][]interface{}`. The dispatcher
never inspects the values, so each `interface{}` element is modelled as an
uninterpreted string. -/
abbrev Rows := List (List String)

/-- Model of the `RowsEventHandler` interface. `Do` receives the action, the
table descriptor and the row payloads and yields nil or an error; the
`context.Context` arguments only carry cancellation and are erased. `Complete`
yields nil or an error. `toString` is the `String()` diagnostic name. -/
structure RowsEventHandler where
  Do : String → Table → Rows → Option GoErr
  Complete : Option GoErr
  toString : String

/-- Model of the Go map `map[string][]RowsEventHandler` behind
`Canal.rsHandlers`: an association list with (at most) one entry per key.
The source's nil-map state and the empty list both model a map without
entries. Map iteration order in Go is unspecified; the entry order of the
list stands in for it, and the properties proved below do not depend on
it. -/
abbrev HandlerMap := List (String × List RowsEventHandler)

/-- Map lookup, `hs, ok := m[k]`: `some` when the key is present. -/
def mapFind : HandlerMap → String → Option (List RowsEventHandler)
  | [], _ => none
  | (k, v) :: rest, key => if k = key then some v else mapFind rest key

/-- Map index read, `m[k]` as a value: the nil slice when absent. -/
def mapGet (m : HandlerMap) (key : String) : List RowsEventHandler :=
  (mapFind m key).getD []

/-- Map assignment `m[k] = v`: replace the entry when present, else add it. -/
def mapUpdate : HandlerMap → String → List RowsEventHandler → HandlerMap
  | [], key, v => [(key, v)]
  | (k, w) :: rest, key, v =>
    if k = key then (key, v) :: rest else (k, w) :: mapUpdate rest key v

/-- The part of the `Canal` state the rows-event handler operations touch:
the registry map. The remaining fields of the Go struct (connection, syncer,
position store, options, mutexes) do not participate in these operations
apart from logging and locking, which are erased. -/
structure Canal where
  rsHandlers : HandlerMap

/-- Model of `Canal.RegisterRowsEventHandler(tableName, h...)`: read the
current slice for the key (nil when absent, as after the source's lazy
`make`) and assign the appended slice back. -/
def RegisterRowsEventHandler (c : Canal) (tableName : String) (h : List RowsEventHandler) : Canal :=
  { c with rsHandlers := mapUpdate c.rsHandlers tableName (mapGet c.rsHandlers tableName ++ h) }

/-- Result of one dispatched goroutine, the closure built by `errGoFn` around
`h.Do`: when `Do` fails with an error of kind `Interrupted` the error is
returned (`errors.WithStack` preserves it); any other error is only logged
and the goroutine returns nil. -/
def errGoFnResult (h : RowsEventHandler) (action : String) (table : Table) (rows : Rows) : Option GoErr :=
  match h.Do action table rows with
  | some err => if err.kind = ErrKind.Interrupted then some err else none
  | none => none

/-- The goroutines `processRowsEventHandler` spawns via `erg.Go`, in spawn
order: the handlers found under the exact table name — only when the map has
the key and the name is nonempty — followed by the handlers under the
all-tables key, the empty string. -/
def processSpawns (c : Canal) (table : Table) : List RowsEventHandler :=
  (match mapFind c.rsHandlers table.Name with
   | some hs => if table.Name ≠ "" then hs else []
   | none => []) ++ mapGet c.rsHandlers ""

/-- Model of `Canal.processRowsEventHandler(ctx, action, table, rows)`: run
every spawned goroutine and return `errors.WithStack(erg.Wait())`.
`erg.Wait` is nil exactly when every goroutine returned nil and otherwise
yields one of the non-nil results (the first to complete); it is determinized
here to the first non-nil result in spawn order. `WithStack` keeps kind and
messages. -/
def processRowsEventHandler (c : Canal) (action : String) (table : Table) (rows : Rows) : Option GoErr :=
  ((processSpawns c table).filterMap (fun h => errGoFnResult h action table rows)).head?

/-- Result of one flush goroutine around `h.Complete`: an `Interrupted`
error is returned (`errors.WithStack`), every other error is only logged. -/
def completeGoFnResult (h : RowsEventHandler) : Option GoErr :=
  match h.Complete with
  | some err => if err.kind = ErrKind.Interrupted then some err else none
  | none => none

/-- The goroutines `flushEventHandlers` spawns, one per registration entry:
the nested loops `for tblName, hs := range c.rsHandlers { for _, h := range
hs { erg.Go(...) } }`. -/
def flushSpawns : HandlerMap → List RowsEventHandler
  | [] => []
  | (_, hs) :: rest => hs ++ flushSpawns rest

/-- Model of `Canal.flushEventHandlers(ctx)`: run every flush goroutine and
return `errors.Wrap(erg.Wait(), "[binlogsync] flushEventHandlers errgroup
Wait")`, where `Wrap` of nil is nil. `erg.Wait` is determinized as in
`processRowsEventHandler`. -/
def flushEventHandlers (c : Canal) : Option GoErr :=
  match ((flushSpawns c.rsHandlers).filterMap completeGoFnResult).head? with
  | some e => some (e.wrap "[binlogsync] flushEventHandlers errgroup Wait")
  | none => none

/-- Spec-side definition, from §4.2 of the design: HandlersFor(tableName)
returns the concatenation of the handlers registered for the exact table
name and the handlers registered for all tables, exact-table handlers
first. Stated from the specification's words, to be compared with the spawn
sequence of the source's `processRowsEventHandler`. -/
def HandlersFor (c : Canal) (tableName : String) : List RowsEventHandler :=
  mapGet c.rsHandlers tableName ++ mapGet c.rsHandlers ""

/-! Concrete sample values used by witnesses and counterexamples. -/

/-- A handler that always succeeds, registered under a concrete table. -/
def hOrders : RowsEventHandler :=
  { Do := fun _ _ _ => none, Complete := none, toString := "orders-handler" }

/-- A handler that always succeeds, registered under the all-tables key. -/
def hWild : RowsEventHandler :=
  { Do := fun _ _ _ => none, Complete := none, toString := "wildcard-handler" }

/-- A concrete error of kind Interrupted. -/
def intErr : GoErr := { kind := ErrKind.Interrupted, msgs := ["stop the syncer"] }

/-- A handler whose Complete fails with an Interrupted error. -/
def hInt : RowsEventHandler :=
  { Do := fun _ _ _ => none, Complete := some intErr, toString := "interrupting-handler" }

/-- A registry with one exact-table handler and one all-tables handler. -/
def cSample : Canal := { rsHandlers := [("orders", [hOrders]), ("", [hWild])] }

/-- A registry with a single handler whose Complete signals Interrupted. -/
def cInt : Canal := { rsHandlers := [("orders", [hInt])] }

/-- An executer whose first-column read fails with an Interrupted error. -/
def cexExecuter : Executer :=
  { execute := Except.ok
      { col0 := Except.error { kind := ErrKind.Interrupted, msgs := ["io timeout"] },
        col1 := Except.ok 4 } }

/-- An executer whose status query fails with an error of kind Other. -/
def wExecuter : Executer :=
  { execute := Except.error { kind := ErrKind.Other, msgs := ["connection refused"] } }

/-! Theorems about the position store. -/

/-- Claim C7: Update(name, offset) always succeeds (the source returns no
error value at all), sets the in-memory log file name and offset to exactly
the given values, leaves the last-persist timestamp unchanged, and performs
no persistence (durable storage is untouched). -/
theorem update_overwrites_in_memory_only (s : MasterStore) (name : String) (pos : Nat) :
    (s.update name pos).info.Name = name ∧
    (s.update name pos).info.Position = pos ∧
    (s.update name pos).info.lastSaveTime = s.info.lastSaveTime ∧
    (s.update name pos).durable = s.durable :=
  ⟨rfl, rfl, rfl, rfl⟩

/-- Claim C8: Close() invokes Save with force = true, and the forced save
bypasses the one-second debounce: regardless of when the last persist
occurred, the persist timestamp is set to the current time and the call
succeeds. -/
theorem close_is_forced_save (s : MasterStore) (now : Nat) :
    s.close now = s.save true now ∧
    (s.close now).1.info.lastSaveTime = now ∧
    (s.close now).2 = none := by
  refine ⟨rfl, ?_, ?_⟩ <;> simp [MasterStore.close, MasterStore.save]

/-- Claim C2, evaluated at the failing input: a forced Save at a time two
seconds past the last persist returns success and records the persist
timestamp, but durable storage still holds the stale record afterwards —
the source's write to durable storage is commented out ("Save todo:
implement saving"), so no Save call ever persists the current Position. -/
theorem save_records_time_but_never_persists :
    MasterStore.save
        { info := { Name := "mysql-bin.000005", Position := 4820, lastSaveTime := 0 },
          durable := some ("mysql-bin.000001", 100) } true (2 * timeSecond) =
      ({ info := { Name := "mysql-bin.000005", Position := 4820, lastSaveTime := 2 * timeSecond },
         durable := some ("mysql-bin.000001", 100) }, none) := rfl

/-- Claim C10: for every offset fetched as an unsigned 64-bit integer, the
load stores the offset reduced modulo 2 ^ 32 into the 32-bit Position
field; an offset of 2 ^ 32 or more is silently truncated, not rejected (the
load still succeeds). -/
theorem loadMasterInfo_truncates_offset (name : String) (p : Nat) (hp : p < 2 ^ 64) :
    loadMasterInfo { execute := Except.ok { col0 := Except.ok name, col1 := Except.ok p } } =
      Except.ok { Name := name, Position := p % uint32Mod, lastSaveTime := 0 } := rfl

/-- Witness for C10 at the 64-bit offset 2 ^ 32 + 7: the load succeeds and
the stored Position is 7. -/
theorem loadMasterInfo_truncates_offset_witness :
    loadMasterInfo
        { execute := Except.ok { col0 := Except.ok "mysql-bin.000009", col1 := Except.ok 4294967303 } } =
      Except.ok { Name := "mysql-bin.000009", Position := 7, lastSaveTime := 0 } := by
  have h := loadMasterInfo_truncates_offset "mysql-bin.000009" 4294967303 (by norm_num)
  exact h.trans (by decide)

/-- Counterexample to claim C4 as stated: when the first column cannot be
read because of an underlying error of kind Interrupted, loadMasterInfo
fails with an error of kind Interrupted — not DataUnavailable. -/
theorem loadMasterInfo_kind_is_not_dataUnavailable :
    loadErrKind (loadMasterInfo cexExecuter) = some ErrKind.Interrupted ∧
      some ErrKind.Interrupted ≠ some ErrKind.DataUnavailable :=
  ⟨rfl, by decide⟩

/-- Claim C4 as amended: loadMasterInfo fails exactly when the status query
fails or the first or second column of the first result row cannot be read;
the failure wraps the underlying error and carries the underlying error's
kind (not necessarily DataUnavailable); on success the log file name and
offset equal the fetched first and second columns, the offset converted to
32 bits. -/
theorem loadMasterInfo_failure_and_success (exec : Executer) :
    (∀ e, firstFetchError exec = some e →
      ∃ e2, loadMasterInfo exec = Except.error e2 ∧ e2.kind = e.kind) ∧
    (firstFetchError exec = none →
      ∃ res name p, exec.execute = Except.ok res ∧ res.col0 = Except.ok name ∧
        res.col1 = Except.ok p ∧
        loadMasterInfo exec = Except.ok { Name := name, Position := p % uint32Mod, lastSaveTime := 0 }) := by
  obtain ⟨ex⟩ := exec
  cases ex with
  | error e =>
    refine ⟨fun e0 he => ?_, fun h => ?_⟩
    · simp only [firstFetchError, Option.some.injEq] at he
      subst he
      exact ⟨_, rfl, rfl⟩
    · simp [firstFetchError] at h
  | ok res =>
    obtain ⟨c0, c1⟩ := res
    cases c0 with
    | error e =>
      refine ⟨fun e0 he => ?_, fun h => ?_⟩
      · simp only [firstFetchError, Option.some.injEq] at he
        subst he
        exact ⟨_, rfl, rfl⟩
      · simp [firstFetchError] at h
    | ok name =>
      cases c1 with
      | error e =>
        refine ⟨fun e0 he => ?_, fun h => ?_⟩
        · simp only [firstFetchError, Option.some.injEq] at he
          subst he
          exact ⟨_, rfl, rfl⟩
        · simp [firstFetchError] at h
      | ok p =>
        refine ⟨fun e0 he => ?_, fun _ => ?_⟩
        · simp [firstFetchError] at he
        · exact ⟨_, name, p, rfl, rfl, rfl, rfl⟩

/-- Witness for the amended C4 at an executer whose status query fails with
an error of kind Other: the load fails and the returned error's kind is
Other. -/
theorem loadMasterInfo_failure_and_success_witness :
    ∃ e2, loadMasterInfo wExecuter = Except.error e2 ∧ e2.kind = ErrKind.Other :=
  (loadMasterInfo_failure_and_success wExecuter).1
    { kind := ErrKind.Other, msgs := ["connection refused"] } rfl

/-! Theorems about the handler registry and the dispatcher. General helper
lemmas first. -/

/-- Helper: the first result of a filterMap exists iff some element of the
list maps to a result. -/
theorem head_filterMap_isSome_iff {α β : Type} (f : α → Option β) (l : List α) :
    ((l.filterMap f).head?).isSome = true ↔ ∃ a ∈ l, ∃ b, f a = some b := by
  induction l with
  | nil => simp
  | cons x xs ih =>
    cases hx : f x with
    | none =>
      rw [List.filterMap_cons_none hx, ih]
      constructor
      · rintro ⟨a, ha, hb⟩
        exact ⟨a, List.mem_cons_of_mem x ha, hb⟩
      · rintro ⟨a, ha, b, hb⟩
        rcases List.mem_cons.mp ha with rfl | ha2
        · rw [hx] at hb; cases hb
        · exact ⟨a, ha2, b, hb⟩
    | some b =>
      rw [List.filterMap_cons_some hx]
      constructor
      · intro _
        exact ⟨x, List.mem_cons_self x xs, b, hx⟩
      · intro _
        rfl

/-- Helper: the first result of a filterMap comes from some element of the
list. -/
theorem head_filterMap_some_mem {α β : Type} {f : α → Option β} {l : List α} {b : β}
    (h : (l.filterMap f).head? = some b) : ∃ a ∈ l, f a = some b := by
  induction l with
  | nil => cases h
  | cons x xs ih =>
    cases hx : f x with
    | none =>
      rw [List.filterMap_cons_none hx] at h
      obtain ⟨a, ha, hb⟩ := ih h
      exact ⟨a, List.mem_cons_of_mem x ha, hb⟩
    | some c =>
      rw [List.filterMap_cons_some hx, List.head?_cons] at h
      cases h
      exact ⟨x, List.mem_cons_self x xs, hx⟩

/-- Helper: looking up the key just assigned finds the assigned value. -/
theorem mapFind_mapUpdate_self (m : HandlerMap) (k : String) (v : List RowsEventHandler) :
    mapFind (mapUpdate m k v) k = some v := by
  induction m with
  | nil => simp [mapUpdate, mapFind]
  | cons p rest ih =>
    obtain ⟨k0, v0⟩ := p
    by_cases hk : k0 = k
    · subst hk
      simp [mapUpdate, mapFind]
    · simp [mapUpdate, mapFind, hk, ih]

/-- Helper: assigning one key leaves every lookup of another key unchanged. -/
theorem mapFind_mapUpdate_ne (m : HandlerMap) (k g : String) (v : List RowsEventHandler)
    (h : g ≠ k) : mapFind (mapUpdate m k v) g = mapFind m g := by
  induction m with
  | nil => simp [mapUpdate, mapFind, Ne.symm h]
  | cons p rest ih =>
    obtain ⟨k0, v0⟩ := p
    by_cases hk : k0 = k
    · subst hk
      have hne : ¬ k0 = g := fun hc => h (hc.symm)
      simp [mapUpdate, mapFind, hne]
    · simp [mapUpdate, mapFind, hk, ih]

/-- Helper: index read after assignment, same key. -/
theorem mapGet_mapUpdate_self (m : HandlerMap) (k : String) (v : List RowsEventHandler) :
    mapGet (mapUpdate m k v) k = v := by
  simp [mapGet, mapFind_mapUpdate_self]

/-- Helper: index read after assignment, other key. -/
theorem mapGet_mapUpdate_ne (m : HandlerMap) (k g : String) (v : List RowsEventHandler)
    (h : g ≠ k) : mapGet (mapUpdate m k v) g = mapGet m g := by
  simp [mapGet, mapFind_mapUpdate_ne m k g v h]

/-- Helper: for a nonempty table name the spawn sequence is the exact-name
handlers followed by the all-tables handlers. -/
theorem processSpawns_nonempty_name (c : Canal) (table : Table) (h : table.Name ≠ "") :
    processSpawns c table = mapGet c.rsHandlers table.Name ++ mapGet c.rsHandlers "" := by
  unfold processSpawns
  cases hf : mapFind c.rsHandlers table.Name with
  | none => simp [mapGet, hf]
  | some hs => simp [mapGet, hf, h]

/-- Helper: a dispatch goroutine yields a result exactly when its handler's
Do returned an error of kind Interrupted. -/
theorem errGoFnResult_isSome_iff (h : RowsEventHandler) (action : String) (table : Table)
    (rows : Rows) :
    (∃ b, errGoFnResult h action table rows = some b) ↔
      ∃ e, h.Do action table rows = some e ∧ e.kind = ErrKind.Interrupted := by
  unfold errGoFnResult
  cases hd : h.Do action table rows with
  | none => simp
  | some e =>
    by_cases hk : e.kind = ErrKind.Interrupted
    · simp [hk]
    · simp [hk]

/-- Helper: a dispatch goroutine's non-nil result has kind Interrupted. -/
theorem errGoFnResult_some_kind {h : RowsEventHandler} {action : String} {table : Table}
    {rows : Rows} {e : GoErr} (he : errGoFnResult h action table rows = some e) :
    e.kind = ErrKind.Interrupted := by
  unfold errGoFnResult at he
  cases hd : h.Do action table rows with
  | none => rw [hd] at he; cases he
  | some err =>
    rw [hd] at he
    by_cases hk : err.kind = ErrKind.Interrupted
    · simp only [hk, if_true, Option.some.injEq] at he
      subst he
      exact hk
    · simp [hk] at he

/-- Helper: a flush goroutine yields a result exactly when its handler's
Complete returned an error of kind Interrupted. -/
theorem completeGoFnResult_isSome_iff (h : RowsEventHandler) :
    (∃ b, completeGoFnResult h = some b) ↔
      ∃ e, h.Complete = some e ∧ e.kind = ErrKind.Interrupted := by
  unfold completeGoFnResult
  cases hd : h.Complete with
  | none => simp
  | some e =>
    by_cases hk : e.kind = ErrKind.Interrupted
    · simp [hk]
    · simp [hk]

/-- Helper: a flush goroutine's non-nil result has kind Interrupted. -/
theorem completeGoFnResult_some_kind {h : RowsEventHandler} {e : GoErr}
    (he : completeGoFnResult h = some e) : e.kind = ErrKind.Interrupted := by
  unfold completeGoFnResult at he
  cases hd : h.Complete with
  | none => rw [hd] at he; cases he
  | some err =>
    rw [hd] at he
    by_cases hk : err.kind = ErrKind.Interrupted
    · simp only [hk, if_true, Option.some.injEq] at he
      subst he
      exact hk
    · simp [hk] at he

/-- Claim C1: for every registry state and dispatched rows event, the
aggregated result of processRowsEventHandler is a failure iff at least one
matched handler's Do returned an error of kind Interrupted; every non-nil
aggregate has kind Interrupted (handler errors of other kinds never fail
the aggregate); and with no matched handlers the dispatch returns
success. -/
theorem dispatch_verdict_interrupted_iff (c : Canal) (action : String) (table : Table)
    (rows : Rows) :
    ((processRowsEventHandler c action table rows).isSome = true ↔
      ∃ h ∈ processSpawns c table,
        ∃ e, h.Do action table rows = some e ∧ e.kind = ErrKind.Interrupted) ∧
    (∀ e, processRowsEventHandler c action table rows = some e →
      e.kind = ErrKind.Interrupted) ∧
    (processSpawns c table = [] → processRowsEventHandler c action table rows = none) := by
  refine ⟨?_, ?_, ?_⟩
  · unfold processRowsEventHandler
    rw [head_filterMap_isSome_iff]
    constructor
    · rintro ⟨a, ha, b, hb⟩
      obtain ⟨e, he, hk⟩ := (errGoFnResult_isSome_iff a action table rows).mp ⟨b, hb⟩
      exact ⟨a, ha, e, he, hk⟩
    · rintro ⟨a, ha, e, he, hk⟩
      obtain ⟨b, hb⟩ := (errGoFnResult_isSome_iff a action table rows).mpr ⟨e, he, hk⟩
      exact ⟨a, ha, b, hb⟩
  · intro e he
    unfold processRowsEventHandler at he
    obtain ⟨a, ha, hfa⟩ := head_filterMap_some_mem he
    exact errGoFnResult_some_kind hfa
  · intro h0
    simp [processRowsEventHandler, h0]

/-- Witness for C1 on a registry without any handler: the dispatch of an
event for table orders is a no-op success. -/
theorem dispatch_verdict_interrupted_iff_witness :
    processRowsEventHandler { rsHandlers := [] } "insert" { Name := "orders" } [] = none :=
  (dispatch_verdict_interrupted_iff { rsHandlers := [] } "insert" { Name := "orders" } []).2.2 rfl

/-- Claim C3: for a nonempty table name, dispatch starts exactly the
handlers registered under the exact name followed by the handlers
registered under the all-tables key, in registration order — the source's
spawn sequence coincides with the specification's HandlersFor. A table with
no exact registrations therefore reaches only the wildcard handlers. -/
theorem dispatch_order_exact_then_wildcard (c : Canal) (table : Table)
    (hne : table.Name ≠ "") :
    processSpawns c table = HandlersFor c table.Name := by
  rw [processSpawns_nonempty_name c table hne]
  rfl

/-- Witness for C3 on a registry with one orders handler and one wildcard
handler: an event for table orders is delivered to both, exact first. -/
theorem dispatch_order_exact_then_wildcard_witness :
    processSpawns cSample { Name := "orders" } = [hOrders, hWild] := by
  rw [dispatch_order_exact_then_wildcard cSample { Name := "orders" } (by decide)]
  rfl

/-- Claim C9: an event whose table name is the empty string is delivered to
exactly the handlers registered under the all-tables key, each once per
registration entry (the exact-name branch is skipped for the empty name, so
no handler is started twice for such an event). -/
theorem empty_table_name_wildcard_only (c : Canal) :
    processSpawns c { Name := "" } = mapGet c.rsHandlers "" := by
  unfold processSpawns
  cases hf : mapFind c.rsHandlers "" with
  | none => simp [mapGet, hf]
  | some hs => simp [mapGet, hf]

/-- Claim C5: flushEventHandlers spawns one Complete task per (tableFilter,
handler) registration entry — the concatenation over all map entries, not
one per table — and fails iff at least one handler's Complete returned an
error of kind Interrupted; Complete errors of other kinds are swallowed,
and a non-nil flush result always has kind Interrupted. -/
theorem flush_one_task_per_registration_interrupted_iff (c : Canal) :
    flushSpawns c.rsHandlers = (c.rsHandlers.map Prod.snd).flatten ∧
    ((flushEventHandlers c).isSome = true ↔
      ∃ h ∈ flushSpawns c.rsHandlers,
        ∃ e, h.Complete = some e ∧ e.kind = ErrKind.Interrupted) ∧
    (∀ e, flushEventHandlers c = some e → e.kind = ErrKind.Interrupted) := by
  refine ⟨?_, ?_, ?_⟩
  · induction c.rsHandlers with
    | nil => rfl
    | cons p rest ih => simp [flushSpawns, ih]
  · have hsame : (flushEventHandlers c).isSome
        = (((flushSpawns c.rsHandlers).filterMap completeGoFnResult).head?).isSome := by
      cases hh : ((flushSpawns c.rsHandlers).filterMap completeGoFnResult).head? <;>
        simp [flushEventHandlers, hh]
    rw [hsame, head_filterMap_isSome_iff]
    constructor
    · rintro ⟨a, ha, b, hb⟩
      obtain ⟨e, he, hk⟩ := (completeGoFnResult_isSome_iff a).mp ⟨b, hb⟩
      exact ⟨a, ha, e, he, hk⟩
    · rintro ⟨a, ha, e, he, hk⟩
      obtain ⟨b, hb⟩ := (completeGoFnResult_isSome_iff a).mpr ⟨e, he, hk⟩
      exact ⟨a, ha, b, hb⟩
  · intro e he
    cases hh : ((flushSpawns c.rsHandlers).filterMap completeGoFnResult).head? with
    | none => simp [flushEventHandlers, hh] at he
    | some e0 =>
      simp only [flushEventHandlers, hh, Option.some.injEq] at he
      obtain ⟨a, ha, hfa⟩ := head_filterMap_some_mem hh
      have hk := completeGoFnResult_some_kind hfa
      rw [← he]
      simpa [GoErr.wrap] using hk

/-- Witness for C5 on a registry holding one handler whose Complete signals
Interrupted: the flush fails. -/
theorem flush_one_task_per_registration_interrupted_iff_witness :
    (flushEventHandlers cInt).isSome = true :=
  (flush_one_task_per_registration_interrupted_iff cInt).2.1.mpr
    ⟨hInt, by simp [cInt, flushSpawns], intErr, rfl, rfl⟩

/-- Claim C6: Register appends the given handlers to the list for the given
filter, preserving the previously registered handlers and every other
filter's list; registering the same handler twice under the same nonempty
filter makes it appear twice in the dispatch spawn sequence for a matching
event, so it is invoked twice. -/
theorem register_appends_and_allows_duplicates (c : Canal) (f : String)
    (hs : List RowsEventHandler) :
    mapGet (RegisterRowsEventHandler c f hs).rsHandlers f = mapGet c.rsHandlers f ++ hs ∧
    (∀ g, g ≠ f → mapGet (RegisterRowsEventHandler c f hs).rsHandlers g = mapGet c.rsHandlers g) ∧
    (∀ x : RowsEventHandler, f ≠ "" →
      processSpawns (RegisterRowsEventHandler (RegisterRowsEventHandler c f [x]) f [x])
          { Name := f } =
        (mapGet c.rsHandlers f ++ [x] ++ [x]) ++ mapGet c.rsHandlers "") := by
  refine ⟨?_, ?_, ?_⟩
  · unfold RegisterRowsEventHandler
    exact mapGet_mapUpdate_self _ _ _
  · intro g hg
    unfold RegisterRowsEventHandler
    exact mapGet_mapUpdate_ne _ _ _ _ hg
  · intro x hf
    have h1 : mapGet (RegisterRowsEventHandler c f [x]).rsHandlers f
        = mapGet c.rsHandlers f ++ [x] := mapGet_mapUpdate_self _ _ _
    have h2a : mapGet (RegisterRowsEventHandler (RegisterRowsEventHandler c f [x]) f [x]).rsHandlers f
        = mapGet (RegisterRowsEventHandler c f [x]).rsHandlers f ++ [x] :=
      mapGet_mapUpdate_self _ _ _
    have h2 : mapGet (RegisterRowsEventHandler (RegisterRowsEventHandler c f [x]) f [x]).rsHandlers f
        = (mapGet c.rsHandlers f ++ [x]) ++ [x] := by
      rw [h2a, h1]
    have h3a : mapGet (RegisterRowsEventHandler (RegisterRowsEventHandler c f [x]) f [x]).rsHandlers ""
        = mapGet (RegisterRowsEventHandler c f [x]).rsHandlers "" :=
      mapGet_mapUpdate_ne _ _ _ _ (Ne.symm hf)
    have h3b : mapGet (RegisterRowsEventHandler c f [x]).rsHandlers ""
        = mapGet c.rsHandlers "" :=
      mapGet_mapUpdate_ne _ _ _ _ (Ne.symm hf)
    have h3 : mapGet (RegisterRowsEventHandler (RegisterRowsEventHandler c f [x]) f [x]).rsHandlers ""
        = mapGet c.rsHandlers "" := h3a.trans h3b
    rw [processSpawns_nonempty_name _ _ hf, h2, h3]

/-- Witness for C6: registering the wildcard handler twice under table
orders results in the spawn sequence for an orders event containing it
twice. -/
theorem register_appends_and_allows_duplicates_witness :
    processSpawns
        (RegisterRowsEventHandler (RegisterRowsEventHandler { rsHandlers := [] } "orders" [hWild])
          "orders" [hWild]) { Name := "orders" } = [hWild, hWild] := by
  have h := (register_appends_and_allows_duplicates { rsHandlers := [] } "orders" []).2.2 hWild
    (by decide)
  simpa [mapGet, mapFind] using h
